import Mathlib

/-!
# Verification of the python-validator RAG retrieval engine

A shallow embedding of the retrieval/re-ranking engine of the
python-validator web application, together with proofs of the
specification's claims about it.

Conventions of the embedding:

* JavaScript strings are modelled as Lean `String` (lists of characters);
  `s.slice(0, n)` becomes `jsSlice s n`, `s.includes(t)` becomes
  `containsList`, SQL `ILIKE '%p%'` becomes a case-insensitive
  containment test.
* The embedding provider and the pgvector store are external
  collaborators.  The query embedding and the cosine-distance operator
  `<=>` are therefore abstracted: each stored row carries its cosine
  distance `dist` to the query under consideration, as a rational
  number.  A SQL `ORDER BY e DESC LIMIT k` is modelled as a stable
  insertion sort over the row order followed by `take k`; SQL leaves the
  order of ties unspecified, and the stable sort over row order is the
  deterministic refinement of that behaviour.
* `async` failure (exceptions) is modelled with `Except String`; the
  outcome of the external embedding call and of the vector-store query
  are passed in as `Except` values.
* Wall-clock times (`Date.now()` deltas) are passed through as an opaque
  `Nat` parameter.
-/

namespace PyValidator

/-- `leadsWith pat s` holds when the character list `pat` is an initial
segment of `s` (JS `String.prototype.startsWith`). -/
def leadsWith : List Char → List Char → Bool
  | [], _ => true
  | _ :: _, [] => false
  | p :: ps, c :: cs => p == c && leadsWith ps cs

/-- `containsList s pat` holds when `pat` occurs contiguously inside `s`
(JS `String.prototype.includes`). -/
def containsList : List Char → List Char → Bool
  | [], pat => leadsWith pat []
  | c :: cs, pat => leadsWith pat (c :: cs) || containsList cs pat

/-- JS `s.includes(pat)` on strings. -/
def containsStr (s pat : String) : Bool :=
  containsList s.data pat.data

/-- JS `String.prototype.toLowerCase`, character-wise. -/
def toLowerStr (s : String) : String :=
  ⟨s.data.map Char.toLower⟩

/-- SQL `s ILIKE '%pat%'`: case-insensitive containment. -/
def ilikeContains (s pat : String) : Bool :=
  containsStr (toLowerStr s) (toLowerStr pat)

/-- SQL `section ILIKE '%pat%'` on a nullable column: `NULL` compares
to nothing (the predicate is not satisfied). -/
def sectionIlike (s : Option String) (pat : String) : Bool :=
  match s with
  | none => false
  | some t => ilikeContains t pat

/-- JS `s.slice(0, n)` for `0 ≤ n`: the first `n` characters. -/
def jsSlice (s : String) (n : ℕ) : String :=
  ⟨s.data.take n⟩

/-- JS optional-chained `section?.includes(pat)` used as a boolean:
`undefined` is falsy. -/
def sectionHas (s : Option String) (pat : String) : Bool :=
  match s with
  | none => false
  | some t => containsStr t pat

/-- The character class of the JS regex `\s` (also the class trimmed by
`String.prototype.trim`). -/
def isJsSpace (c : Char) : Bool :=
  c == ' ' || c == '\t' || c == '\n' || c == '\x0b' || c == '\x0c' ||
  c == '\r' || c == '\u00a0' || c == '\u1680' ||
  (('\u2000' : Char) ≤ c && c ≤ ('\u200a' : Char)) ||
  c == '\u2028' || c == '\u2029' || c == '\u202f' || c == '\u205f' ||
  c == '\u3000' || c == '\ufeff'

/-- JS `String.prototype.trim`: drop whitespace from both ends. -/
def jsTrim (l : List Char) : List Char :=
  ((l.dropWhile isJsSpace).reverse.dropWhile isJsSpace).reverse

end PyValidator

namespace PyValidator.TitanEmbeddingClient

open PyValidator (isJsSpace jsTrim)

/-- `replace(/\s+/g, ' ')`: every maximal run of whitespace becomes a
single space.  The boolean flag records whether the previous character
belonged to a whitespace run. -/
def collapseWsAux : Bool → List Char → List Char
  | _, [] => []
  | inWs, c :: cs =>
    if isJsSpace c then
      (if inWs then [] else [' ']) ++ collapseWsAux true cs
    else
      c :: collapseWsAux false cs

def collapseWs (l : List Char) : List Char :=
  collapseWsAux false l

/-- `replace(/\n+/g, '\n')`: every maximal run of newlines becomes a
single newline. -/
def collapseNlAux : Bool → List Char → List Char
  | _, [] => []
  | inNl, c :: cs =>
    if c == '\n' then
      (if inNl then [] else ['\n']) ++ collapseNlAux true cs
    else
      c :: collapseNlAux false cs

def collapseNl (l : List Char) : List Char :=
  collapseNlAux false l

/-- `TitanEmbeddingClient.preprocessText` (titan-client.ts):
collapse whitespace runs to one space, collapse newline runs to one
newline, trim, and truncate to the 8000-character Titan input limit. -/
def preprocessText (text : String) : String :=
  ⟨(jsTrim (collapseNl (collapseWs text.data))).take 8000⟩

end PyValidator.TitanEmbeddingClient

namespace PyValidator.RagEngine

open PyValidator

/-- A `knowledge_documents` row as seen by one search call.  The
embedding column and the query embedding are external, so the row
carries its cosine distance `dist = embedding <=> queryEmbedding` to
the query under consideration.  The free-form `metadata` JSON column is
opaque to every operation modelled here and is omitted. -/
structure StoredDoc where
  id : String
  title : String
  content : String
  «section» : Option String
  documentType : String
  dist : ℚ
deriving DecidableEq, Repr

/-- The `SearchResult` interface (rag-engine source). -/
structure SearchResult where
  id : String
  title : String
  content : String
  «section» : Option String
  documentType : String
  similarity : ℚ
deriving DecidableEq, Repr

/-- A `code_examples` row, with the same distance abstraction. -/
structure StoredExample where
  id : String
  title : String
  codeContent : String
  qualityScore : ℤ
  category : Option String
  description : Option String
  tags : Option (List String)
  dist : ℚ
deriving DecidableEq, Repr

/-- The `ExampleSearchResult` interface. -/
structure ExampleSearchResult where
  id : String
  title : String
  codeContent : String
  qualityScore : ℤ
  category : Option String
  description : Option String
  similarity : ℚ
  tags : Option (List String)
deriving DecidableEq, Repr

/-- Raw cosine similarity of a row: `1 - (embedding <=> queryEmbedding)`. -/
def rawSimilarity (d : StoredDoc) : ℚ := 1 - d.dist

/-- The `CASE` authority multiplier of `searchPantherRules`:
`%Panther Rule%` section and `rule` type → 1.3; `%Writing Python
Detections%` section → 1.2; `rule` type → 1.1; otherwise 1. -/
def authorityWeight (d : StoredDoc) : ℚ :=
  if sectionIlike d.«section» "Panther Rule" && (d.documentType == "rule") then 13/10
  else if sectionIlike d.«section» "Writing Python Detections" then 12/10
  else if d.documentType == "rule" then 11/10
  else 1

/-- The weighted score used for ordering and returned as `similarity`
by `searchPantherRules`. -/
def weightedScore (d : StoredDoc) : ℚ :=
  authorityWeight d * rawSimilarity d

/-- Result row construction of `searchRelevantRules` /
`searchByPantherFunctions`: `similarity` is the raw cosine similarity. -/
def toPlainResult (d : StoredDoc) : SearchResult :=
  { id := d.id, title := d.title, content := d.content,
    «section» := d.«section», documentType := d.documentType,
    similarity := rawSimilarity d }

/-- Result row construction of `searchPantherRules`: `similarity` is
the weighted score. -/
def toWeightedResult (d : StoredDoc) : SearchResult :=
  { id := d.id, title := d.title, content := d.content,
    «section» := d.«section», documentType := d.documentType,
    similarity := weightedScore d }

/-- The `WHERE embedding <=> q < 1 - minSimilarity` filter shared by the
document searches. -/
def thresholdFilter (minSimilarity : ℚ) (docs : List StoredDoc) : List StoredDoc :=
  docs.filter (fun d => d.dist < 1 - minSimilarity)

/-- `ORDER BY embedding <=> q` (ascending distance). -/
def distAscend (a b : StoredDoc) : Prop := a.dist ≤ b.dist

instance : DecidableRel distAscend := fun a b => by
  unfold distAscend; infer_instance

/-- `ORDER BY weightedScore DESC`. -/
def weightedDescend (a b : StoredDoc) : Prop := weightedScore b ≤ weightedScore a

instance : DecidableRel weightedDescend := fun a b => by
  unfold weightedDescend; infer_instance

/-- `RAGEngine.searchRelevantRules`, happy path: threshold filter,
ascending-distance order, `LIMIT topK`, raw similarity in the result. -/
def searchRelevantRulesRows (topK : ℕ) (minSimilarity : ℚ)
    (docs : List StoredDoc) : List SearchResult :=
  ((List.insertionSort distAscend (thresholdFilter minSimilarity docs)).take topK).map
    toPlainResult

/-- `RAGEngine.searchRelevantRules` with its failure behaviour: the
embedding call and the vector-store query may each fail; the `catch`
block rethrows `RAG search failed: …`.  `embed` is the outcome of
`generateEmbedding`, `table` the outcome of the vector-store query
(its rows when it succeeds). -/
def searchRelevantRules (embed : Except String Unit)
    (table : Except String (List StoredDoc))
    (topK : ℕ) (minSimilarity : ℚ) : Except String (List SearchResult) :=
  match embed with
  | .error e => .error ("RAG search failed: " ++ e)
  | .ok _ =>
    match table with
    | .error e => .error ("RAG search failed: " ++ e)
    | .ok docs => .ok (searchRelevantRulesRows topK minSimilarity docs)

/-- `RAGEngine.searchPantherRules`, happy path: threshold filter,
descending weighted order, `LIMIT topK`, weighted score in the
`similarity` field. -/
def searchPantherRules (topK : ℕ) (minSimilarity : ℚ)
    (docs : List StoredDoc) : List SearchResult :=
  ((List.insertionSort weightedDescend (thresholdFilter minSimilarity docs)).take topK).map
    toWeightedResult

end PyValidator.RagEngine

namespace PyValidator

/-- The shared truncation step of the prompt builders:
`content.slice(0, budget) + (content.length > budget ? marker : '')`. -/
def docFragment (budget : ℕ) (marker : String) (content : String) : String :=
  jsSlice content budget ++ (if budget < content.length then marker else "")

end PyValidator

namespace PyValidator.RagEngine

open PyValidator

/-- `ORDER BY embedding <=> q` (ascending distance) on example rows. -/
def exampleDistAscend (a b : StoredExample) : Prop := a.dist ≤ b.dist

instance : DecidableRel exampleDistAscend := fun a b => by
  unfold exampleDistAscend; infer_instance

/-- Result row construction of `searchSimilarExamples`. -/
def toExampleResult (e : StoredExample) : ExampleSearchResult :=
  { id := e.id, title := e.title, codeContent := e.codeContent,
    qualityScore := e.qualityScore, category := e.category,
    description := e.description, similarity := 1 - e.dist, tags := e.tags }

/-- `RAGEngine.searchSimilarExamples`, happy path: threshold filter on
the example collection, ascending-distance order, `LIMIT topK`. -/
def searchSimilarExamplesRows (topK : ℕ) (minSimilarity : ℚ)
    (examples : List StoredExample) : List ExampleSearchResult :=
  ((List.insertionSort exampleDistAscend
      (examples.filter (fun e => e.dist < 1 - minSimilarity))).take topK).map
    toExampleResult

/-- The fixed keyword markers of `searchByPantherFunctions`. -/
def pantherKeywords : List String :=
  ["rule(", "severity(", "title(", "dedup(", "runbook(",
   "deep_get", "deep_walk", "event.get", "event.udm"]

/-- The `WHERE` clause of `searchByPantherFunctions`: the content must
contain (ILIKE) one of the fixed keywords, and the cosine distance must
be below the fixed `0.5` ceiling. -/
def keywordCandidates (docs : List StoredDoc) : List StoredDoc :=
  docs.filter (fun d =>
    pantherKeywords.any (fun k => ilikeContains d.content k) && d.dist < 1/2)

/-- `RAGEngine.searchByPantherFunctions`, happy path (its `catch` block
returns `[]` instead of propagating, so only the row computation is
modelled): keyword gate, descending-similarity order, `LIMIT topK`. -/
def searchByPantherFunctions (topK : ℕ) (docs : List StoredDoc) : List SearchResult :=
  ((List.insertionSort distAscend (keywordCandidates docs)).take topK).map toPlainResult

/-- The duplicate-dropping filter of `buildEnhancedContext`: a JS `Set`
of already-seen ids, keeping the first occurrence of each id. -/
def dedupeById : List SearchResult → List String → List SearchResult
  | [], _ => []
  | d :: rest, seen =>
    if d.id ∈ seen then dedupeById rest seen
    else d :: dedupeById rest (d.id :: seen)

/-- A JS `Set.add`: append when not yet present (insertion order). -/
def addUnique (l : List String) (x : String) : List String :=
  if x ∈ l then l else l ++ [x]

def addAllUnique (l : List String) (xs : List String) : List String :=
  xs.foldl addUnique l

/-- The alternation of the regex
`/def\s+(rule|severity|title|dedup|runbook)\s*\(/g`. -/
def ruleFuncNames : List String := ["rule", "severity", "title", "dedup", "runbook"]

/-- Does the regex above match at the head of `s`?  Returns the captured
function name. -/
def matchRuleFuncAt (s : List Char) : Option String :=
  if leadsWith "def".data s then
    match s.drop 3 with
    | [] => none
    | c :: cs =>
      if isJsSpace c then
        let rest := (c :: cs).dropWhile isJsSpace
        ruleFuncNames.find? (fun n =>
          leadsWith n.data rest &&
          (match (rest.drop n.length).dropWhile isJsSpace with
           | '(' :: _ => true
           | _ => false))
      else none
  else none

/-- All captured function names, scanning left to right (the matches of
the global regex, in order). -/
def collectRuleFuncs : List Char → List String
  | [] => []
  | c :: cs =>
    match matchRuleFuncAt (c :: cs) with
    | some n => n :: collectRuleFuncs cs
    | none => collectRuleFuncs cs

/-- The delimiter class of `content.split(/[.!?]+/)`. -/
def isSentenceDelim (c : Char) : Bool := c == '.' || c == '!' || c == '?'

/-- JS `split(/[.!?]+/)`: runs of delimiters separate the pieces. -/
def splitSentencesAux : Bool → List Char → List Char → List (List Char)
  | _, cur, [] => [cur.reverse]
  | inDelim, cur, c :: cs =>
    if isSentenceDelim c then
      if inDelim then splitSentencesAux true cur cs
      else cur.reverse :: splitSentencesAux true [] cs
    else splitSentencesAux false (c :: cur) cs

def splitSentences (l : List Char) : List (List Char) :=
  splitSentencesAux false [] l

/-- The record returned by `RAGEngine.extractRulePatterns`. -/
structure RulePatterns where
  requiredFunctions : List String
  commonPatterns : List String
  validationRules : List String
  bestPractices : List String
deriving DecidableEq, Repr

/-- The per-document body of the `documents.forEach` loop of
`extractRulePatterns`. -/
def extractStep (acc : RulePatterns) (doc : SearchResult) : RulePatterns :=
  let content := toLowerStr doc.content
  let cl := content.data
  let requiredFunctions := addAllUnique acc.requiredFunctions (collectRuleFuncs cl)
  let commonPatterns := addAllUnique acc.commonPatterns
    ((if containsList cl "event.get(".data then ["event.get() 사용"] else []) ++
     (if containsList cl "deep_get(".data then ["deep_get() 안전한 접근"] else []) ++
     (if containsList cl "deep_walk(".data then ["deep_walk() 중첩 탐색"] else []) ++
     (if containsList cl "event.udm".data then ["UDM 필드 활용"] else []) ++
     (if containsList cl "try:".data && containsList cl "except:".data then
        ["예외 처리 구현"] else []))
  let validationRules := addAllUnique acc.validationRules
    ((if containsList cl "return true".data || containsList cl "return false".data then
        ["Boolean 반환값 필수"] else []) ++
     (if containsList cl "timeout".data || containsList cl "15 second".data then
        ["15초 실행 시간 제한"] else []) ++
     (if containsList cl "api".data && containsList cl "request".data then
        ["외부 API 호출 금지"] else []))
  let bestPractices :=
    if sectionHas doc.«section» "best practice" || containsList cl "best practice".data then
      addAllUnique acc.bestPractices
        (((splitSentences cl).filter (fun s =>
            containsList s "should".data || containsList s "must".data ||
            containsList s "recommended".data)).map
          (fun s => (⟨(jsTrim s).take 100⟩ : String)))
    else acc.bestPractices
  { requiredFunctions := requiredFunctions, commonPatterns := commonPatterns,
    validationRules := validationRules, bestPractices := bestPractices }

/-- `RAGEngine.extractRulePatterns`: the four JS `Set`s built over the
documents, with `bestPractices` capped at 5. -/
def extractRulePatterns (documents : List SearchResult) : RulePatterns :=
  let acc := documents.foldl extractStep ⟨[], [], [], []⟩
  { acc with bestPractices := acc.bestPractices.take 5 }

/-- The record returned by `RAGEngine.buildRuleComplianceContext` (the
spec's `ComplianceContext`). -/
structure ComplianceContext where
  missingRequirements : List String
  complianceScore : ℤ
  suggestions : List String
deriving DecidableEq, Repr

/-- `RAGEngine.buildRuleComplianceContext` (the spec's
`estimateCompliance`): fixed penalties against a 100 ceiling, floored
at 0, plus best-practice suggestions from the matched documents. -/
def buildRuleComplianceContext (code : String) (documents : List SearchResult) :
    ComplianceContext :=
  let patterns := extractRulePatterns documents
  let codeLines := toLowerStr code
  let hasRule := containsStr codeLines "def rule("
  let hasAccess := containsStr codeLines "event.get(" || containsStr codeLines "deep_get("
  let hasBool := containsStr codeLines "return true" || containsStr codeLines "return false"
  let missing :=
    (if hasRule then [] else ["rule(event) 함수가 누락되었습니다"]) ++
    (if hasAccess then [] else ["안전한 이벤트 데이터 접근 방법이 필요합니다"]) ++
    (if hasBool then [] else ["명시적인 Boolean 반환값이 필요합니다"])
  let score : ℤ := 100 - (if hasRule then 0 else 30) - (if hasAccess then 0 else 15) -
    (if hasBool then 0 else 20)
  { missingRequirements := missing,
    complianceScore := max 0 score,
    suggestions := patterns.bestPractices.map (fun p => "모범 사례: " ++ p) }

end PyValidator.RagEngine

namespace PyValidator.RagEngine

open PyValidator

/-- The role statement opening every prompt. -/
def rolePrompt : String :=
  "당신은 Panther 탐지 규칙을 전문으로 하는 Python 코드 검증자입니다.\n\n"

/-- The `officialRules` predicate of `buildPromptWithRAG` (JS
`includes`, case-sensitive, on the optional section). -/
def isOfficialDoc (d : SearchResult) : Bool :=
  sectionHas d.«section» "Panther Rule" ||
  sectionHas d.«section» "Writing Python Detections" ||
  d.documentType == "rule"

/-- Concatenate `f` over a list with a running index (the
`forEach((x, index) => …)` accumulation into `prompt`). -/
def enumConcat {α : Type} (f : ℕ → α → String) : ℕ → List α → String
  | _, [] => ""
  | i, x :: xs => f i x ++ enumConcat f (i + 1) xs

/-- One entry of the official-rules block (content budget 1000). -/
def officialEntry (fmt : ℚ → String) (i : ℕ) (doc : SearchResult) : String :=
  "### " ++ toString (i + 1) ++ ". " ++ doc.title ++
  (match doc.«section» with | some s => " - " ++ s | none => "") ++
  " (권위도: " ++ fmt doc.similarity ++ "%)\n" ++
  "**핵심 요구사항**: " ++ docFragment 1000 "..." doc.content ++ "\n\n"

/-- One entry of the supplementary-documents block (content budget 600). -/
def otherEntry (fmt : ℚ → String) (i : ℕ) (doc : SearchResult) : String :=
  "### " ++ toString (i + 1) ++ ". " ++ doc.title ++
  (match doc.«section» with | some s => " - " ++ s | none => "") ++
  " (관련도: " ++ fmt doc.similarity ++ "%)\n" ++
  docFragment 600 "..." doc.content ++ "\n\n"

/-- One entry of the similar-examples block (code budget 600).  The
same text is produced by both versions of the engine. -/
def exampleEntry (fmt : ℚ → String) (i : ℕ) (e : ExampleSearchResult) : String :=
  "### 예제 " ++ toString (i + 1) ++ ": " ++ e.title ++
  " (품질점수: " ++ toString e.qualityScore ++ "/100, 유사도: " ++ fmt e.similarity ++ "%)\n" ++
  (match e.description with | some d => "**설명**: " ++ d ++ "\n" | none => "") ++
  (match e.category with | some c => "**카테고리**: " ++ c ++ "\n" | none => "") ++
  "**코드**:\n```python\n" ++ docFragment 600 "\n# ... (truncated)" e.codeContent ++
  "\n```\n\n"

def officialHeader : String := "## 🔴 공식 Panther 규칙 가이드라인:\n\n"

def otherHeader : String := "## 📘 추가 참고 문서:\n\n"

def exampleHeader : String := "## 유사한 코드 예제 참고:\n\n"

def criteriaHeader : String := "## 🎯 Panther 규칙 준수성 평가 기준:\n\n"

/-- The checklist appended when official rules were matched. -/
def officialChecklist : String :=
  "### 📋 공식 규칙 기반 체크리스트:\n" ++
  "위의 공식 Panther 문서를 바탕으로 다음을 **필수적으로** 검증하세요:\n\n" ++
  "1. **필수 함수 구조 (90점 만점)**:\n" ++
  "   - `rule(event)` 함수 존재 및 올바른 반환값 (Boolean)\n" ++
  "   - 필요시 `severity()`, `title()`, `dedup()`, `runbook()` 함수 구현\n" ++
  "   - 함수 시그니처와 반환 타입의 정확성\n\n" ++
  "2. **Panther 내장 함수 활용 (80점 만점)**:\n" ++
  "   - `event.get()`, `deep_get()`, `deep_walk()` 적절한 사용\n" ++
  "   - UDM(Unified Data Model) 필드 활용도\n" ++
  "   - 안전한 데이터 접근 패턴\n\n" ++
  "3. **보안 및 성능 (70점 만점)**:\n" ++
  "   - 15초 내 실행 보장 (타임아웃 방지)\n" ++
  "   - 외부 API 호출 금지 준수\n" ++
  "   - 예외 처리 및 안전한 데이터 핸들링\n\n"

/-- The fixed closing criteria of the enhanced prompt. -/
def closingCriteria : String :=
  "### 🔍 추가 품질 평가:\n" ++
  "- **코드 품질**: 유사 예제와 비교한 구현 수준\n" ++
  "- **탐지 정확성**: False positive/negative 최소화\n" ++
  "- **가독성**: 코드 명확성과 주석의 적절성\n" ++
  "- **유지보수성**: 확장성과 수정 용이성\n\n" ++
  "### ⚠️ 중요 지침:\n" ++
  "- 공식 Panther 문서의 요구사항을 **최우선**으로 적용\n" ++
  "- 규칙 준수성 점수는 공식 가이드라인 준수 정도에 따라 엄격하게 채점\n" ++
  "- 참고 문서의 구체적인 예시와 패턴을 인용하여 개선 제안 제공\n" ++
  "- 검증 불가능한 부분은 명시적으로 언급\n\n" ++
  "**모든 응답은 한국어로 작성하고 JSON 형식만 반환하세요.**"

/-- `RAGEngine.buildPromptWithRAG` (the Panther-specialised engine).
The percentage formatter `(x * 100).toFixed(1)` renders IEEE doubles
and is abstracted as the parameter `fmt`; every other part is the
source's string building. -/
def buildPromptWithRAG (fmt : ℚ → String) (documents : List SearchResult)
    (examples : List ExampleSearchResult) : String :=
  let officialRules := documents.filter (fun d => isOfficialDoc d)
  let otherDocs := documents.filter (fun d => !(isOfficialDoc d))
  rolePrompt ++
  (if 0 < officialRules.length then
    officialHeader ++ enumConcat (officialEntry fmt) 0 officialRules
  else "") ++
  (if 0 < otherDocs.length then
    otherHeader ++ enumConcat (otherEntry fmt) 0 otherDocs
  else "") ++
  (if 0 < examples.length then
    exampleHeader ++ enumConcat (exampleEntry fmt) 0 examples
  else "") ++
  criteriaHeader ++
  (if 0 < officialRules.length then officialChecklist else "") ++
  closingCriteria

/-- The `searchMetadata` object of `RAGContext`. -/
structure SearchMetadata where
  documentsFound : ℕ
  examplesFound : ℕ
  queryProcessingTime : ℕ
deriving DecidableEq, Repr

/-- The `RAGContext` interface (the spec's `RetrievalContext`), with
its optional `complianceContext` field. -/
structure RAGContext where
  relevantDocuments : List SearchResult
  similarExamples : List ExampleSearchResult
  enhancedPrompt : String
  searchMetadata : SearchMetadata
  complianceContext : Option ComplianceContext

/-- `RAGEngine.buildEnhancedContext`, happy path.  The query text is
the input code; its embedding is abstracted into the `dist` field of
each stored row.  `processingTime` stands for the wall-clock
`Date.now()` delta.  The source returns the object literal without a
`complianceContext` key, hence `none`. -/
def buildEnhancedContext (fmt : ℚ → String) (docs : List StoredDoc)
    (examples : List StoredExample) (processingTime : ℕ) : RAGContext :=
  let pantherRules := searchPantherRules 3 (3/4) docs
  let functionDocs := searchByPantherFunctions 2 docs
  let similarExamples := searchSimilarExamplesRows 3 (13/20) examples
  let relevantDocuments := (dedupeById (pantherRules ++ functionDocs) []).take 5
  { relevantDocuments := relevantDocuments,
    similarExamples := similarExamples,
    enhancedPrompt := buildPromptWithRAG fmt relevantDocuments similarExamples,
    searchMetadata :=
      { documentsFound := relevantDocuments.length,
        examplesFound := similarExamples.length,
        queryProcessingTime := processingTime },
    complianceContext := none }

/-- The RAG step of `POST /api/validate-rag` (route.ts): build the
context, then compute the compliance context over the code and the
merged `relevantDocuments` and attach it to the context object. -/
def validateRagContext (fmt : ℚ → String) (code : String) (docs : List StoredDoc)
    (examples : List StoredExample) (processingTime : ℕ) : RAGContext :=
  let ragContext := buildEnhancedContext fmt docs examples processingTime
  { ragContext with
    complianceContext :=
      some (buildRuleComplianceContext code ragContext.relevantDocuments) }

/-- The record returned by `RAGEngine.getSearchStats`; the JS `Record`s
become association lists. -/
structure SearchStats where
  totalDocuments : ℕ
  totalExamples : ℕ
  documentTypes : List (String × ℕ)
  exampleCategories : List (String × ℕ)
deriving DecidableEq, Repr

/-- The zero statistics returned by the `catch` block. -/
def emptySearchStats : SearchStats :=
  { totalDocuments := 0, totalExamples := 0, documentTypes := [],
    exampleCategories := [] }

/-- `RAGEngine.getSearchStats`: the four storage queries each either
return rows or throw; the first failure aborts the `try` block and the
`catch` returns the zero statistics.  `docCount`/`exampleCount` carry
the optional first row of the `count(*)` query (`docCount?.count || 0`),
the group-by queries carry `(key, count)` rows. -/
def getSearchStats (docCount : Except String (Option ℕ))
    (exampleCount : Except String (Option ℕ))
    (docTypes : Except String (List (String × ℕ)))
    (exampleCats : Except String (List (Option String × ℕ))) : SearchStats :=
  match docCount, exampleCount, docTypes, exampleCats with
  | .ok dc, .ok ec, .ok dt, .ok cats =>
    { totalDocuments := dc.getD 0, totalExamples := ec.getD 0,
      documentTypes := dt,
      exampleCategories := cats.map (fun p => (p.1.getD "uncategorized", p.2)) }
  | _, _, _, _ => emptySearchStats

end PyValidator.RagEngine

namespace PyValidator.RagEngineBasic

open PyValidator PyValidator.RagEngine

/-- One document entry of the basic engine's `buildPromptWithRAG`
(content budget 800). -/
def basicDocEntry (fmt : ℚ → String) (i : ℕ) (doc : SearchResult) : String :=
  "### " ++ toString (i + 1) ++ ". " ++ doc.title ++
  (match doc.«section» with | some s => " - " ++ s | none => "") ++
  " (관련도: " ++ fmt doc.similarity ++ "%)\n" ++
  docFragment 800 "..." doc.content ++ "\n\n"

def basicDocHeader : String := "## 관련 Panther 규칙 참고 문서:\n\n"

/-- The fixed closing criteria of the basic prompt. -/
def basicClosing : String :=
  "## 평가 기준:\n" ++
  "위의 참고 문서와 예제를 바탕으로 다음 기준으로 코드를 평가하세요:\n\n" ++
  "- **규칙 준수성**: 참고 문서의 Panther 가이드라인 준수 여부\n" ++
  "- **코드 품질**: 유사 예제와 비교한 코드 품질 수준\n" ++
  "- **보안 모범 사례**: 탐지 규칙의 보안 관점 평가\n" ++
  "- **성능 및 효율성**: 실행 시간과 리소스 사용 최적화\n" ++
  "- **가독성 및 유지보수성**: 코드의 명확성과 문서화 수준\n\n" ++
  "**중요**: 참고 문서와 예제의 내용을 기반으로 구체적이고 실용적인 개선 제안을 제공하세요.\n" ++
  "모든 응답은 한국어로 작성하고 JSON 형식만 반환하세요."

/-- `RAGEngine.buildPromptWithRAG` of the basic engine
(`lib/knowledge` sibling module): one documents block with an
800-character budget, the same examples block, a fixed closing. -/
def buildPromptWithRAG (fmt : ℚ → String) (documents : List SearchResult)
    (examples : List ExampleSearchResult) : String :=
  rolePrompt ++
  (if 0 < documents.length then
    basicDocHeader ++ enumConcat (basicDocEntry fmt) 0 documents
  else "") ++
  (if 0 < examples.length then
    exampleHeader ++ enumConcat (exampleEntry fmt) 0 examples
  else "") ++
  basicClosing

end PyValidator.RagEngineBasic

namespace PyValidator

open PyValidator.RagEngine

/-- C4: for every code text and document list,
`buildRuleComplianceContext` (the spec's `estimateCompliance`) returns
100 minus the fixed penalties — 30 without a `def rule(` entry point,
15 without `event.get(`/`deep_get(`, 20 without a literal boolean
return — clamped below at 0 and never above 100, so the score is always
in [0, 100]; and code missing all three patterns scores exactly 35 with
exactly three missing-requirement entries. -/
theorem buildRuleComplianceContext_score_bounds (code : String)
    (documents : List SearchResult) :
    (0 ≤ (buildRuleComplianceContext code documents).complianceScore ∧
      (buildRuleComplianceContext code documents).complianceScore ≤ 100) ∧
    (buildRuleComplianceContext code documents).complianceScore =
      max 0 (100 -
        (if containsStr (toLowerStr code) "def rule(" then 0 else 30) -
        (if containsStr (toLowerStr code) "event.get(" ||
            containsStr (toLowerStr code) "deep_get(" then 0 else 15) -
        (if containsStr (toLowerStr code) "return true" ||
            containsStr (toLowerStr code) "return false" then 0 else 20)) ∧
    (containsStr (toLowerStr code) "def rule(" = false →
      containsStr (toLowerStr code) "event.get(" = false →
      containsStr (toLowerStr code) "deep_get(" = false →
      containsStr (toLowerStr code) "return true" = false →
      containsStr (toLowerStr code) "return false" = false →
      (buildRuleComplianceContext code documents).complianceScore = 35 ∧
      (buildRuleComplianceContext code documents).missingRequirements.length = 3) := by
  rcases Bool.eq_false_or_eq_true (containsStr (toLowerStr code) "def rule(") with h1 | h1 <;>
  rcases Bool.eq_false_or_eq_true (containsStr (toLowerStr code) "event.get(") with h2 | h2 <;>
  rcases Bool.eq_false_or_eq_true (containsStr (toLowerStr code) "deep_get(") with h3 | h3 <;>
  rcases Bool.eq_false_or_eq_true (containsStr (toLowerStr code) "return true") with h4 | h4 <;>
  rcases Bool.eq_false_or_eq_true (containsStr (toLowerStr code) "return false") with h5 | h5 <;>
  simp [buildRuleComplianceContext, h1, h2, h3, h4, h5]

/-- Witness for C4 at the empty code text: score 35 and three missing
requirements. -/
theorem buildRuleComplianceContext_score_bounds_witness :
    (buildRuleComplianceContext "" []).complianceScore = 35 ∧
    (buildRuleComplianceContext "" []).missingRequirements.length = 3 :=
  (buildRuleComplianceContext_score_bounds "" []).2.2
    (by decide) (by decide) (by decide) (by decide) (by decide)

/-- C9: when the embedding call or the vector-store query inside
`searchRelevantRules` fails, the failure is rethrown as a
`RAG search failed: …` error to the caller; no `.ok` value — in
particular no empty list — is produced. -/
theorem searchRelevantRules_error_propagation (embed : Except String Unit)
    (table : Except String (List StoredDoc)) (topK : ℕ) (minSimilarity : ℚ)
    (h : (∃ e, embed = Except.error e) ∨ (∃ e, table = Except.error e)) :
    ∃ msg, searchRelevantRules embed table topK minSimilarity =
        Except.error ("RAG search failed: " ++ msg) ∧
      ∀ rs, searchRelevantRules embed table topK minSimilarity ≠ Except.ok rs := by
  cases embed with
  | error e => exact ⟨e, rfl, fun rs => by simp [searchRelevantRules]⟩
  | ok u =>
    cases table with
    | error e => exact ⟨e, rfl, fun rs => by simp [searchRelevantRules]⟩
    | ok docs =>
      rcases h with ⟨e, he⟩ | ⟨e, he⟩ <;> simp at he

/-- Witness for C9: a vector-store connection error propagates. -/
theorem searchRelevantRules_error_propagation_witness :
    ∃ msg, searchRelevantRules (Except.ok ()) (Except.error "connection refused") 5 (7/10) =
        Except.error ("RAG search failed: " ++ msg) ∧
      ∀ rs, searchRelevantRules (Except.ok ()) (Except.error "connection refused") 5 (7/10) ≠
        Except.ok rs :=
  searchRelevantRules_error_propagation (Except.ok ()) (Except.error "connection refused")
    5 (7/10) (Or.inr ⟨"connection refused", rfl⟩)

/-- C10: `getSearchStats` never propagates a storage failure; when any
of its four queries throws, it returns the zero statistics object. -/
theorem getSearchStats_swallows_errors (docCount exampleCount : Except String (Option ℕ))
    (docTypes : Except String (List (String × ℕ)))
    (exampleCats : Except String (List (Option String × ℕ)))
    (h : (∃ e, docCount = Except.error e) ∨ (∃ e, exampleCount = Except.error e) ∨
      (∃ e, docTypes = Except.error e) ∨ (∃ e, exampleCats = Except.error e)) :
    getSearchStats docCount exampleCount docTypes exampleCats = emptySearchStats := by
  cases docCount <;> cases exampleCount <;> cases docTypes <;> cases exampleCats <;>
    first
      | rfl
      | (rcases h with ⟨e, he⟩ | ⟨e, he⟩ | ⟨e, he⟩ | ⟨e, he⟩ <;> simp at he)

/-- Witness for C10: a failing count query yields the zero statistics. -/
theorem getSearchStats_swallows_errors_witness :
    getSearchStats (Except.error "db down") (Except.ok none) (Except.ok []) (Except.ok []) =
      emptySearchStats :=
  getSearchStats_swallows_errors (Except.error "db down") (Except.ok none)
    (Except.ok []) (Except.ok []) (Or.inl ⟨"db down", rfl⟩)

end PyValidator

namespace PyValidator.RagEngine

instance : IsTotal StoredDoc distAscend :=
  ⟨fun a b => le_total a.dist b.dist⟩

instance : IsTrans StoredDoc distAscend :=
  ⟨fun _ _ _ hab hbc => le_trans hab hbc⟩

instance : IsTotal StoredDoc weightedDescend :=
  ⟨fun a b => (le_total (weightedScore b) (weightedScore a)).imp id id⟩

instance : IsTrans StoredDoc weightedDescend :=
  ⟨fun _ _ _ hab hbc => le_trans hbc hab⟩

end PyValidator.RagEngine

namespace PyValidator

open PyValidator.RagEngine

/-- C1: for every query (abstracted into the per-row distances),
positive `topK` and `minSimilarity` in [0, 1], `searchRelevantRules`
(the spec's `searchDocuments`) succeeds with an ordered list of at most
`topK` results, each with similarity at least `minSimilarity`, and with
the empty list — not an error — when no stored document satisfies the
threshold. -/
theorem searchRelevantRules_topK_threshold (topK : ℕ) (minSimilarity : ℚ)
    (docs : List StoredDoc) (_hK : 0 < topK) (_h0 : 0 ≤ minSimilarity)
    (_h1 : minSimilarity ≤ 1) :
    ∃ out, searchRelevantRules (Except.ok ()) (Except.ok docs) topK minSimilarity =
        Except.ok out ∧
      out.length ≤ topK ∧
      (∀ r ∈ out, minSimilarity ≤ r.similarity) ∧
      out.Pairwise (fun a b => b.similarity ≤ a.similarity) ∧
      ((∀ d ∈ docs, ¬(d.dist < 1 - minSimilarity)) → out = []) := by
  refine ⟨searchRelevantRulesRows topK minSimilarity docs, rfl, ?_, ?_, ?_, ?_⟩
  · simp only [searchRelevantRulesRows, List.length_map]
    exact (List.length_take _ _).le.trans inf_le_left
  · intro r hr
    simp only [searchRelevantRulesRows, List.mem_map] at hr
    obtain ⟨d, hd, rfl⟩ := hr
    have hd' : d ∈ thresholdFilter minSimilarity docs :=
      ((List.perm_insertionSort distAscend _).subset
        ((List.take_sublist _ _).subset hd))
    have := (List.mem_filter.mp hd').2
    simp only [decide_eq_true_eq] at this
    simp only [toPlainResult, rawSimilarity]
    linarith
  · have hs : (List.insertionSort distAscend
        (thresholdFilter minSimilarity docs)).Pairwise distAscend :=
      List.sorted_insertionSort distAscend _
    have ht : ((List.insertionSort distAscend
        (thresholdFilter minSimilarity docs)).take topK).Pairwise distAscend :=
      hs.sublist (List.take_sublist _ _)
    exact ht.map toPlainResult (fun a b hab => by
      simp only [toPlainResult, rawSimilarity]
      exact sub_le_sub_left hab 1)
  · intro hnone
    have : thresholdFilter minSimilarity docs = [] := by
      simp only [thresholdFilter]
      exact List.filter_eq_nil_iff.mpr (fun d hd => by
        simpa using hnone d hd)
    simp [searchRelevantRulesRows, this]

/-- Witness for C1 at a two-document store with `topK = 2`,
`minSimilarity = 1/2`. -/
theorem searchRelevantRules_topK_threshold_witness :
    ∃ out, searchRelevantRules (Except.ok ())
        (Except.ok [⟨"x", "", "", none, "t", 1/10⟩, ⟨"y", "", "", none, "t", 9/10⟩])
        2 (1/2) = Except.ok out ∧
      out.length ≤ 2 ∧
      (∀ r ∈ out, (1 : ℚ)/2 ≤ r.similarity) ∧
      out.Pairwise (fun a b => b.similarity ≤ a.similarity) ∧
      ((∀ d ∈ [(⟨"x", "", "", none, "t", 1/10⟩ : StoredDoc), ⟨"y", "", "", none, "t", 9/10⟩],
          ¬(d.dist < 1 - 1/2)) → out = []) :=
  searchRelevantRules_topK_threshold 2 (1/2)
    [⟨"x", "", "", none, "t", 1/10⟩, ⟨"y", "", "", none, "t", 9/10⟩]
    (by norm_num) (by norm_num) (by norm_num)

/-- The authoritative document of the spec's re-ranking scenario: raw
cosine similarity 0.72 (distance 7/25), section labelled
`Panther Rule`, type `rule`. -/
def scenarioAuthoritative : StoredDoc :=
  ⟨"A", "authoritative", "", some "Panther Rule", "rule", 7/25⟩

/-- The unlabeled document of the scenario: raw similarity 0.75. -/
def scenarioUnlabeled : StoredDoc :=
  ⟨"B", "unlabeled", "", none, "guide", 1/4⟩

unseal Rat.add Rat.mul Rat.inv Rat.sub in
/-- C2: `searchPantherRules` (the spec's `searchDocumentsWeighted`)
orders its results descending by the authority-weighted similarity,
the returned `similarity` field holds the weighted score
`authorityWeight × raw`, and in the spec's scenario the authoritative
document (0.72 × 1.3 = 0.936) ranks above the unlabeled one (0.75),
even when stored after it. -/
theorem searchPantherRules_weighted_order (topK : ℕ) (minSimilarity : ℚ)
    (docs : List StoredDoc) :
    (searchPantherRules topK minSimilarity docs).Pairwise
      (fun a b => b.similarity ≤ a.similarity) ∧
    (∀ r ∈ searchPantherRules topK minSimilarity docs, ∃ d ∈ docs,
      r = toWeightedResult d ∧ r.similarity = authorityWeight d * (1 - d.dist)) ∧
    searchPantherRules 5 (1/2) [scenarioUnlabeled, scenarioAuthoritative] =
      [toWeightedResult scenarioAuthoritative, toWeightedResult scenarioUnlabeled] ∧
    (toWeightedResult scenarioAuthoritative).similarity = 117/125 ∧
    (toWeightedResult scenarioUnlabeled).similarity = 3/4 := by
  refine ⟨?_, ?_, by decide, by decide, by decide⟩
  · have hs : (List.insertionSort weightedDescend
        (thresholdFilter minSimilarity docs)).Pairwise weightedDescend :=
      List.sorted_insertionSort weightedDescend _
    have ht := hs.sublist (List.take_sublist topK _)
    exact ht.map toWeightedResult (fun a b hab => hab)
  · intro r hr
    simp only [searchPantherRules, List.mem_map] at hr
    obtain ⟨d, hd, rfl⟩ := hr
    have hd' : d ∈ thresholdFilter minSimilarity docs :=
      ((List.perm_insertionSort weightedDescend _).subset
        ((List.take_sublist _ _).subset hd))
    exact ⟨d, (List.mem_filter.mp hd').1, rfl, rfl⟩

/-- Witness for C2, instantiated at the scenario store. -/
theorem searchPantherRules_weighted_order_witness :
    (searchPantherRules 5 (1/2) [scenarioUnlabeled, scenarioAuthoritative]).Pairwise
      (fun a b => b.similarity ≤ a.similarity) ∧
    (∀ r ∈ searchPantherRules 5 (1/2) [scenarioUnlabeled, scenarioAuthoritative],
      ∃ d ∈ [scenarioUnlabeled, scenarioAuthoritative],
        r = toWeightedResult d ∧ r.similarity = authorityWeight d * (1 - d.dist)) ∧
    searchPantherRules 5 (1/2) [scenarioUnlabeled, scenarioAuthoritative] =
      [toWeightedResult scenarioAuthoritative, toWeightedResult scenarioUnlabeled] ∧
    (toWeightedResult scenarioAuthoritative).similarity = 117/125 ∧
    (toWeightedResult scenarioUnlabeled).similarity = 3/4 :=
  searchPantherRules_weighted_order 5 (1/2) [scenarioUnlabeled, scenarioAuthoritative]

end PyValidator

namespace PyValidator.RagEngine

/-- Every result surviving `dedupeById` has an id outside the seen set. -/
theorem dedupeById_not_seen : ∀ (l : List SearchResult) (seen : List String),
    ∀ r ∈ dedupeById l seen, r.id ∉ seen := by
  intro l
  induction l with
  | nil => intro seen r hr; simp [dedupeById] at hr
  | cons d rest ih =>
    intro seen r hr
    by_cases hd : d.id ∈ seen
    · rw [dedupeById, if_pos hd] at hr
      exact ih seen r hr
    · rw [dedupeById, if_neg hd] at hr
      rcases List.mem_cons.mp hr with rfl | hr'
      · exact hd
      · have := ih (d.id :: seen) r hr'
        exact fun hmem => this (List.mem_cons_of_mem _ hmem)

/-- The ids of `dedupeById`'s output contain no duplicates. -/
theorem dedupeById_nodup : ∀ (l : List SearchResult) (seen : List String),
    ((dedupeById l seen).map (fun r => r.id)).Nodup := by
  intro l
  induction l with
  | nil => intro seen; simp [dedupeById]
  | cons d rest ih =>
    intro seen
    by_cases hd : d.id ∈ seen
    · rw [dedupeById, if_pos hd]; exact ih seen
    · rw [dedupeById, if_neg hd]
      refine List.nodup_cons.mpr ⟨?_, ih (d.id :: seen)⟩
      intro hmem
      rcases List.mem_map.mp hmem with ⟨r, hr, hid⟩
      exact (dedupeById_not_seen rest (d.id :: seen) r hr)
        (hid ▸ List.mem_cons_self _ _)

end PyValidator.RagEngine

namespace PyValidator

open PyValidator.RagEngine

/-- C5: `relevantDocuments` returned by `buildEnhancedContext` is the
weighted-search results followed by the keyword-search results with
later occurrences of seen ids dropped, capped at 5 entries, and hence
never contains two entries with the same document id. -/
theorem buildEnhancedContext_nodup (fmt : ℚ → String) (docs : List StoredDoc)
    (examples : List StoredExample) (t : ℕ) :
    (buildEnhancedContext fmt docs examples t).relevantDocuments =
      (dedupeById (searchPantherRules 3 (3/4) docs ++ searchByPantherFunctions 2 docs)
        []).take 5 ∧
    ((buildEnhancedContext fmt docs examples t).relevantDocuments.map
      (fun r => r.id)).Nodup ∧
    (buildEnhancedContext fmt docs examples t).relevantDocuments.length ≤ 5 := by
  refine ⟨rfl, ?_, ?_⟩
  · have h := dedupeById_nodup
      (searchPantherRules 3 (3/4) docs ++ searchByPantherFunctions 2 docs) []
    have hsub : ((dedupeById
          (searchPantherRules 3 (3/4) docs ++ searchByPantherFunctions 2 docs) []).take
            5).map (fun r => r.id) |>.Sublist
        ((dedupeById
          (searchPantherRules 3 (3/4) docs ++ searchByPantherFunctions 2 docs) []).map
            (fun r => r.id)) := by
      rw [List.map_take]
      exact List.take_sublist _ _
    exact hsub.nodup h
  · show ((dedupeById _ []).take 5).length ≤ 5
    exact (List.length_take _ _).le.trans inf_le_left

/-- Witness for C5 at a concrete store. -/
theorem buildEnhancedContext_nodup_witness :
    (buildEnhancedContext (fun _ => "") [⟨"x", "", "", none, "t", 1/10⟩] [] 0).relevantDocuments =
      (dedupeById (searchPantherRules 3 (3/4) [⟨"x", "", "", none, "t", 1/10⟩] ++
        searchByPantherFunctions 2 [⟨"x", "", "", none, "t", 1/10⟩]) []).take 5 ∧
    ((buildEnhancedContext (fun _ => "") [⟨"x", "", "", none, "t", 1/10⟩] [] 0).relevantDocuments.map
      (fun r => r.id)).Nodup ∧
    (buildEnhancedContext (fun _ => "") [⟨"x", "", "", none, "t", 1/10⟩] [] 0).relevantDocuments.length ≤ 5 :=
  buildEnhancedContext_nodup (fun _ => "") [⟨"x", "", "", none, "t", 1/10⟩] [] 0

/-- The earlier-stored tied document of C6: raw similarity 0.6, type
`rule`, weighted score 0.66. -/
def tieEarlier : StoredDoc := ⟨"tieA", "", "", none, "rule", 2/5⟩

/-- The later-stored tied document of C6: raw similarity 0.66, no
weighting, weighted score 0.66. -/
def tieLater : StoredDoc := ⟨"tieB", "", "", none, "doc", 17/50⟩

unseal Rat.add Rat.mul Rat.inv Rat.sub in
/-- Counterexample to C6 as stated: two returned results with equal
weighted scores (both 0.66) appear in insertion order even though the
first has the strictly smaller underlying raw cosine similarity
(0.6 < 0.66) — the order is not "stable by underlying raw similarity". -/
theorem searchPantherRules_tie_raw_cex :
    weightedScore tieEarlier = weightedScore tieLater ∧
    rawSimilarity tieEarlier < rawSimilarity tieLater ∧
    searchPantherRules 5 (1/2) [tieEarlier, tieLater] =
      [toWeightedResult tieEarlier, toWeightedResult tieLater] ∧
    (toWeightedResult tieEarlier).similarity = (toWeightedResult tieLater).similarity := by
  decide

/-- C6 (amended): whenever two candidate documents tie on the weighted
score, the sorted output keeps them in their stored (insertion) order —
the sort is stable over the candidate order and raw similarity plays no
role in tie-breaking. -/
theorem searchPantherRules_tie_insertion_order (minSimilarity : ℚ)
    (docs pre mid post : List StoredDoc) (d1 d2 : StoredDoc)
    (hsplit : thresholdFilter minSimilarity docs = pre ++ d1 :: (mid ++ d2 :: post))
    (htie : weightedScore d1 = weightedScore d2) :
    [d1, d2].Sublist
      (List.insertionSort weightedDescend (thresholdFilter minSimilarity docs)) ∧
    [toWeightedResult d1, toWeightedResult d2].Sublist
      ((List.insertionSort weightedDescend (thresholdFilter minSimilarity docs)).map
        toWeightedResult) := by
  have hpair : List.Pairwise weightedDescend [d1, d2] := by
    refine List.pairwise_cons.mpr ⟨?_, List.pairwise_singleton _ _⟩
    intro d hd
    rcases List.mem_singleton.mp hd with rfl
    exact le_of_eq htie.symm
  have hsub : [d1, d2].Sublist (thresholdFilter minSimilarity docs) := by
    rw [hsplit]
    have h2 : [d2].Sublist (d2 :: post) := (List.nil_sublist post).cons₂ d2
    have h2' : [d2].Sublist (mid ++ d2 :: post) :=
      h2.trans (List.sublist_append_right mid _)
    have h12 : [d1, d2].Sublist (d1 :: (mid ++ d2 :: post)) := h2'.cons₂ d1
    exact h12.trans (List.sublist_append_right pre _)
  have h := List.sublist_insertionSort hpair hsub
  exact ⟨h, h.map toWeightedResult⟩

unseal Rat.add Rat.mul Rat.inv Rat.sub in
/-- Witness for the amended C6 at the concrete tied store. -/
theorem searchPantherRules_tie_insertion_order_witness :
    [tieEarlier, tieLater].Sublist
      (List.insertionSort weightedDescend (thresholdFilter (1/2) [tieEarlier, tieLater])) ∧
    [toWeightedResult tieEarlier, toWeightedResult tieLater].Sublist
      ((List.insertionSort weightedDescend (thresholdFilter (1/2) [tieEarlier, tieLater])).map
        toWeightedResult) :=
  searchPantherRules_tie_insertion_order (1/2) [tieEarlier, tieLater] [] [] []
    tieEarlier tieLater (by decide) (by decide)

end PyValidator

namespace PyValidator

open PyValidator.RagEngine

/-- Counterexample to C3 as stated: at a concrete input,
`buildEnhancedContext` returns a `RAGContext` whose optional
`complianceContext` is absent (`none`) — the compliance pre-score is
not computed inside `buildEnhancedContext`. -/
theorem buildEnhancedContext_compliance_none :
    (buildEnhancedContext (fun _ => "") [] [] 0).complianceContext = none := rfl

/-- C3 (amended): `buildEnhancedContext` itself returns the context
without a `ComplianceContext`; the validate-rag route then computes the
§4.2 compliance pre-score over the input code and the merged
`relevantDocuments` via `buildRuleComplianceContext` and attaches it to
the context it uses, leaving the other fields unchanged. -/
theorem validateRagContext_attaches_compliance (fmt : ℚ → String) (code : String)
    (docs : List StoredDoc) (examples : List StoredExample) (t : ℕ) :
    (buildEnhancedContext fmt docs examples t).complianceContext = none ∧
    (validateRagContext fmt code docs examples t).complianceContext =
      some (buildRuleComplianceContext code
        (buildEnhancedContext fmt docs examples t).relevantDocuments) ∧
    (validateRagContext fmt code docs examples t).relevantDocuments =
      (buildEnhancedContext fmt docs examples t).relevantDocuments ∧
    (validateRagContext fmt code docs examples t).similarExamples =
      (buildEnhancedContext fmt docs examples t).similarExamples ∧
    (validateRagContext fmt code docs examples t).enhancedPrompt =
      (buildEnhancedContext fmt docs examples t).enhancedPrompt :=
  ⟨rfl, rfl, rfl, rfl, rfl⟩

/-- Witness for the amended C3 at a concrete input. -/
theorem validateRagContext_attaches_compliance_witness :
    (buildEnhancedContext (fun _ => "") [] [] 0).complianceContext = none ∧
    (validateRagContext (fun _ => "") "def rule(event): return True" [] [] 0).complianceContext =
      some (buildRuleComplianceContext "def rule(event): return True"
        (buildEnhancedContext (fun _ => "") [] [] 0).relevantDocuments) ∧
    (validateRagContext (fun _ => "") "def rule(event): return True" [] [] 0).relevantDocuments =
      (buildEnhancedContext (fun _ => "") [] [] 0).relevantDocuments ∧
    (validateRagContext (fun _ => "") "def rule(event): return True" [] [] 0).similarExamples =
      (buildEnhancedContext (fun _ => "") [] [] 0).similarExamples ∧
    (validateRagContext (fun _ => "") "def rule(event): return True" [] [] 0).enhancedPrompt =
      (buildEnhancedContext (fun _ => "") [] [] 0).enhancedPrompt :=
  validateRagContext_attaches_compliance (fun _ => "") "def rule(event): return True" [] [] 0

end PyValidator

namespace PyValidator

open PyValidator.RagEngine

/-- `promptHas s sub`: the character sequence of `sub` occurs
contiguously inside `s`. -/
def promptHas (s sub : String) : Prop :=
  ∃ pre post, s.data = pre ++ sub.data ++ post

theorem promptHas_append_left (a : String) {s sub : String} (h : promptHas s sub) :
    promptHas (a ++ s) sub := by
  obtain ⟨pre, post, hp⟩ := h
  exact ⟨a.data ++ pre, post, by simp [String.data_append, hp, List.append_assoc]⟩

theorem promptHas_append_right (b : String) {s sub : String} (h : promptHas s sub) :
    promptHas (s ++ b) sub := by
  obtain ⟨pre, post, hp⟩ := h
  exact ⟨pre, post ++ b.data, by simp [String.data_append, hp, List.append_assoc]⟩

theorem promptHas_of_data (a b : String) {s sub : String}
    (h : s.data = a.data ++ sub.data ++ b.data) : promptHas s sub :=
  ⟨a.data, b.data, h⟩

theorem enumConcat_has {α : Type} (f : ℕ → α → String) (sub : String)
    (l : List α) : ∀ (i : ℕ) (x : α), x ∈ l → (∀ j, promptHas (f j x) sub) →
    promptHas (enumConcat f i l) sub := by
  induction l with
  | nil => intro i x hx; simp at hx
  | cons y ys ih =>
    intro i x hx hsub
    have hstep : enumConcat f i (y :: ys) = f i y ++ enumConcat f (i + 1) ys := rfl
    rw [hstep]
    rcases List.mem_cons.mp hx with rfl | hx'
    · exact promptHas_append_right _ (hsub i)
    · exact promptHas_append_left _ (ih (i + 1) x hx' hsub)

theorem officialEntry_has (fmt : ℚ → String) (j : ℕ) (d : SearchResult) :
    promptHas (officialEntry fmt j d) (docFragment 1000 "..." d.content) := by
  refine promptHas_of_data
    ("### " ++ toString (j + 1) ++ ". " ++ d.title ++
      (match d.«section» with | some s => " - " ++ s | none => "") ++
      " (권위도: " ++ fmt d.similarity ++ "%)\n" ++ "**핵심 요구사항**: ")
    "\n\n" ?_
  simp [officialEntry, String.data_append, List.append_assoc]

theorem otherEntry_has (fmt : ℚ → String) (j : ℕ) (d : SearchResult) :
    promptHas (otherEntry fmt j d) (docFragment 600 "..." d.content) := by
  refine promptHas_of_data
    ("### " ++ toString (j + 1) ++ ". " ++ d.title ++
      (match d.«section» with | some s => " - " ++ s | none => "") ++
      " (관련도: " ++ fmt d.similarity ++ "%)\n")
    "\n\n" ?_
  simp [otherEntry, String.data_append, List.append_assoc]

theorem exampleEntry_has (fmt : ℚ → String) (j : ℕ) (e : ExampleSearchResult) :
    promptHas (exampleEntry fmt j e)
      (docFragment 600 "\n# ... (truncated)" e.codeContent) := by
  refine promptHas_of_data
    ("### 예제 " ++ toString (j + 1) ++ ": " ++ e.title ++
      " (품질점수: " ++ toString e.qualityScore ++ "/100, 유사도: " ++ fmt e.similarity ++
      "%)\n" ++
      (match e.description with | some d => "**설명**: " ++ d ++ "\n" | none => "") ++
      (match e.category with | some c => "**카테고리**: " ++ c ++ "\n" | none => "") ++
      "**코드**:\n```python\n")
    "\n```\n\n" ?_
  simp [exampleEntry, String.data_append, List.append_assoc]

theorem basicDocEntry_has (fmt : ℚ → String) (j : ℕ) (d : SearchResult) :
    promptHas (RagEngineBasic.basicDocEntry fmt j d) (docFragment 800 "..." d.content) := by
  refine promptHas_of_data
    ("### " ++ toString (j + 1) ++ ". " ++ d.title ++
      (match d.«section» with | some s => " - " ++ s | none => "") ++
      " (관련도: " ++ fmt d.similarity ++ "%)\n")
    "\n\n" ?_
  simp [RagEngineBasic.basicDocEntry, String.data_append, List.append_assoc]

end PyValidator

namespace PyValidator

open PyValidator.RagEngine

theorem prompt_has_official (fmt : ℚ → String) (docs : List SearchResult)
    (exs : List ExampleSearchResult) (d : SearchResult)
    (hd : d ∈ docs) (hoff : isOfficialDoc d = true) :
    promptHas (buildPromptWithRAG fmt docs exs) (docFragment 1000 "..." d.content) := by
  have hmem : d ∈ docs.filter (fun x => isOfficialDoc x) :=
    List.mem_filter.mpr ⟨hd, hoff⟩
  have hlen : 0 < (docs.filter (fun x => isOfficialDoc x)).length :=
    List.length_pos.mpr (List.ne_nil_of_mem hmem)
  dsimp only [buildPromptWithRAG]
  apply promptHas_append_right
  apply promptHas_append_right
  apply promptHas_append_right
  apply promptHas_append_right
  apply promptHas_append_right
  apply promptHas_append_left
  rw [if_pos hlen]
  apply promptHas_append_left
  exact enumConcat_has _ _ _ 0 d hmem (fun j => officialEntry_has fmt j d)

theorem prompt_has_other (fmt : ℚ → String) (docs : List SearchResult)
    (exs : List ExampleSearchResult) (d : SearchResult)
    (hd : d ∈ docs) (hoff : isOfficialDoc d = false) :
    promptHas (buildPromptWithRAG fmt docs exs) (docFragment 600 "..." d.content) := by
  have hmem : d ∈ docs.filter (fun x => !isOfficialDoc x) :=
    List.mem_filter.mpr ⟨hd, by simp [hoff]⟩
  have hlen : 0 < (docs.filter (fun x => !isOfficialDoc x)).length :=
    List.length_pos.mpr (List.ne_nil_of_mem hmem)
  dsimp only [buildPromptWithRAG]
  apply promptHas_append_right
  apply promptHas_append_right
  apply promptHas_append_right
  apply promptHas_append_right
  apply promptHas_append_left
  rw [if_pos hlen]
  apply promptHas_append_left
  exact enumConcat_has _ _ _ 0 d hmem (fun j => otherEntry_has fmt j d)

theorem prompt_has_example (fmt : ℚ → String) (docs : List SearchResult)
    (exs : List ExampleSearchResult) (e : ExampleSearchResult) (he : e ∈ exs) :
    promptHas (buildPromptWithRAG fmt docs exs)
      (docFragment 600 "\n# ... (truncated)" e.codeContent) := by
  have hlen : 0 < exs.length := List.length_pos.mpr (List.ne_nil_of_mem he)
  dsimp only [buildPromptWithRAG]
  apply promptHas_append_right
  apply promptHas_append_right
  apply promptHas_append_right
  apply promptHas_append_left
  rw [if_pos hlen]
  apply promptHas_append_left
  exact enumConcat_has _ _ _ 0 e he (fun j => exampleEntry_has fmt j e)

theorem basicPrompt_has_doc (fmt : ℚ → String) (docs : List SearchResult)
    (exs : List ExampleSearchResult) (d : SearchResult) (hd : d ∈ docs) :
    promptHas (RagEngineBasic.buildPromptWithRAG fmt docs exs)
      (docFragment 800 "..." d.content) := by
  have hlen : 0 < docs.length := List.length_pos.mpr (List.ne_nil_of_mem hd)
  dsimp only [RagEngineBasic.buildPromptWithRAG]
  apply promptHas_append_right
  apply promptHas_append_right
  apply promptHas_append_left
  rw [if_pos hlen]
  apply promptHas_append_left
  exact enumConcat_has _ _ _ 0 d hd (fun j => basicDocEntry_has fmt j d)

theorem basicPrompt_has_example (fmt : ℚ → String) (docs : List SearchResult)
    (exs : List ExampleSearchResult) (e : ExampleSearchResult) (he : e ∈ exs) :
    promptHas (RagEngineBasic.buildPromptWithRAG fmt docs exs)
      (docFragment 600 "\n# ... (truncated)" e.codeContent) := by
  have hlen : 0 < exs.length := List.length_pos.mpr (List.ne_nil_of_mem he)
  dsimp only [RagEngineBasic.buildPromptWithRAG]
  apply promptHas_append_right
  apply promptHas_append_left
  rw [if_pos hlen]
  apply promptHas_append_left
  exact enumConcat_has _ _ _ 0 e he (fun j => exampleEntry_has fmt j e)

/-- C7: the truncation law of prompt assembly.  (a) For content longer
than its budget, the emitted fragment is exactly the first budget-many
characters followed by the truncation marker, its length is exactly
budget + marker length (so never exceeds it); content at or under the
budget is included whole, and the fragment never exceeds
budget + marker length.  (b) Each document/example fragment occurs
inside the assembled prompt with its configured budget: 1000 for
authoritative documents and 600 for the other documents of the enhanced
prompt, 800 for documents of the basic prompt, 600 for example code
snippets in both (marker `\n# ... (truncated)`). -/
theorem prompt_truncation_law (fmt : ℚ → String) (documents : List SearchResult)
    (examples : List ExampleSearchResult) :
    (∀ (budget : ℕ) (marker content : String),
      (budget < content.length →
        docFragment budget marker content = jsSlice content budget ++ marker ∧
        (docFragment budget marker content).length = budget + marker.length) ∧
      (content.length ≤ budget → docFragment budget marker content = content) ∧
      (docFragment budget marker content).length ≤ budget + marker.length) ∧
    (∀ d ∈ documents, isOfficialDoc d = true →
      promptHas (buildPromptWithRAG fmt documents examples)
        (docFragment 1000 "..." d.content)) ∧
    (∀ d ∈ documents, isOfficialDoc d = false →
      promptHas (buildPromptWithRAG fmt documents examples)
        (docFragment 600 "..." d.content)) ∧
    (∀ e ∈ examples,
      promptHas (buildPromptWithRAG fmt documents examples)
        (docFragment 600 "\n# ... (truncated)" e.codeContent)) ∧
    (∀ d ∈ documents,
      promptHas (RagEngineBasic.buildPromptWithRAG fmt documents examples)
        (docFragment 800 "..." d.content)) ∧
    (∀ e ∈ examples,
      promptHas (RagEngineBasic.buildPromptWithRAG fmt documents examples)
        (docFragment 600 "\n# ... (truncated)" e.codeContent)) := by
  refine ⟨?_, ?_, ?_, ?_, ?_, ?_⟩
  · intro budget marker content
    have hsl : (jsSlice content budget).length = min budget content.length := by
      show (content.data.take budget).length = _
      rw [List.length_take]
      rfl
    refine ⟨?_, ?_, ?_⟩
    · intro h
      have heq : docFragment budget marker content = jsSlice content budget ++ marker := by
        simp [docFragment, h]
      refine ⟨heq, ?_⟩
      rw [heq, String.length_append, hsl, min_eq_left h.le]
    · intro h
      have hn : ¬ budget < content.length := not_lt.mpr h
      have h' : content.data.length ≤ budget := h
      simp only [docFragment, if_neg hn, String.append_empty]
      show (⟨content.data.take budget⟩ : String) = content
      rw [List.take_of_length_le h']
    · by_cases h : budget < content.length
      · have heq : docFragment budget marker content = jsSlice content budget ++ marker := by
          simp [docFragment, h]
        rw [heq, String.length_append, hsl, min_eq_left h.le]
      · have h' : content.length ≤ budget := not_lt.mp h
        have hn : ¬ budget < content.length := h
        simp only [docFragment, if_neg hn, String.append_empty]
        calc (jsSlice content budget).length = min budget content.length := hsl
          _ ≤ budget := min_le_left _ _
          _ ≤ budget + marker.length := Nat.le_add_right _ _
  · intro d hd hoff
    exact prompt_has_official fmt documents examples d hd hoff
  · intro d hd hoff
    exact prompt_has_other fmt documents examples d hd hoff
  · intro e he
    exact prompt_has_example fmt documents examples e he
  · intro d hd
    exact basicPrompt_has_doc fmt documents examples d hd
  · intro e he
    exact basicPrompt_has_example fmt documents examples e he

/-- The authoritative document of the C7 witness. -/
def truncDoc : SearchResult :=
  ⟨"doc1", "authoritative doc", "guideline body", some "Panther Rule", "rule", 0⟩

/-- The example row of the C7 witness. -/
def truncExample : ExampleSearchResult :=
  ⟨"ex1", "sample rule", "def rule(event): return True", 90, none, none, 0, none⟩

/-- Witness for C7: the fragment law at budget 3 over a 5-character
content, and the containments at a concrete document and example. -/
theorem prompt_truncation_law_witness :
    ((3 : ℕ) < ("abcde" : String).length →
      docFragment 3 "..." "abcde" = jsSlice "abcde" 3 ++ "..." ∧
      (docFragment 3 "..." "abcde").length = 3 + ("..." : String).length) ∧
    promptHas (buildPromptWithRAG (fun _ => "") [truncDoc] [truncExample])
      (docFragment 1000 "..." truncDoc.content) ∧
    promptHas (RagEngineBasic.buildPromptWithRAG (fun _ => "") [truncDoc] [truncExample])
      (docFragment 800 "..." truncDoc.content) ∧
    promptHas (buildPromptWithRAG (fun _ => "") [truncDoc] [truncExample])
      (docFragment 600 "\n# ... (truncated)" truncExample.codeContent) :=
  ⟨((prompt_truncation_law (fun _ => "") [truncDoc] [truncExample]).1 3 "..." "abcde").1,
   (prompt_truncation_law (fun _ => "") [truncDoc] [truncExample]).2.1 truncDoc
     (List.mem_singleton.mpr rfl) rfl,
   (prompt_truncation_law (fun _ => "") [truncDoc] [truncExample]).2.2.2.2.1 truncDoc
     (List.mem_singleton.mpr rfl),
   (prompt_truncation_law (fun _ => "") [truncDoc] [truncExample]).2.2.2.1 truncExample
     (List.mem_singleton.mpr rfl)⟩

end PyValidator

namespace PyValidator.TitanEmbeddingClient

open PyValidator

/-- Whitespace occurs only as the plain space character. -/
def spaceOnly (l : List Char) : Prop :=
  ∀ c ∈ l, isJsSpace c = true → c = ' '

/-- No two adjacent space characters. -/
def noTwoSpaces (l : List Char) : Prop :=
  l.Chain' (fun a b => ¬(a = ' ' ∧ b = ' '))

theorem collapseWsAux_spaceOnly : ∀ (l : List Char) (b : Bool),
    spaceOnly (collapseWsAux b l) := by
  intro l
  induction l with
  | nil => intro b c hc; simp [collapseWsAux] at hc
  | cons d ds ih =>
    intro b c hc hws
    by_cases hd : isJsSpace d = true
    · rw [collapseWsAux, if_pos hd] at hc
      rcases List.mem_append.mp hc with h | h
      · cases b with
        | true => simp at h
        | false => simpa using h
      · exact ih true c h hws
    · rw [collapseWsAux, if_neg hd] at hc
      rcases List.mem_cons.mp hc with rfl | h
      · exact absurd hws hd
      · exact ih false c h hws

theorem collapseWsAux_true_head : ∀ (l : List Char) (c : Char) (cs : List Char),
    collapseWsAux true l = c :: cs → isJsSpace c = false := by
  intro l
  induction l with
  | nil => intro c cs h; simp [collapseWsAux] at h
  | cons d ds ih =>
    intro c cs h
    by_cases hd : isJsSpace d = true
    · rw [collapseWsAux, if_pos hd] at h
      exact ih c cs (by simpa using h)
    · rw [collapseWsAux, if_neg hd] at h
      injection h with h1 h2
      subst h1
      exact Bool.eq_false_iff.mpr hd

theorem collapseWsAux_noTwo : ∀ (l : List Char) (b : Bool),
    noTwoSpaces (collapseWsAux b l) := by
  intro l
  induction l with
  | nil => intro b; simp [collapseWsAux, noTwoSpaces]
  | cons d ds ih =>
    intro b
    by_cases hd : isJsSpace d = true
    · show List.Chain' _ (collapseWsAux b (d :: ds))
      rw [collapseWsAux, if_pos hd]
      cases b with
      | true => exact ih true
      | false =>
        refine List.chain'_cons'.mpr ⟨?_, ih true⟩
        intro y hy
        cases hh : collapseWsAux true ds with
        | nil => simp [hh] at hy
        | cons z zs =>
          rw [hh] at hy
          rw [show ([] : List Char).append (z :: zs) = z :: zs from rfl] at hy
          simp only [List.head?_cons, Option.mem_def, Option.some.injEq] at hy
          subst hy
          have hz := collapseWsAux_true_head ds z zs hh
          intro hcon
          rw [hcon.2] at hz
          exact absurd hz (by decide)
    · show List.Chain' _ (collapseWsAux b (d :: ds))
      rw [collapseWsAux, if_neg hd]
      refine List.chain'_cons'.mpr ⟨?_, ih false⟩
      intro y hy hcon
      rw [hcon.1] at hd
      exact hd (by decide)

theorem collapseWsAux_id : ∀ (l : List Char) (b : Bool),
    spaceOnly l → noTwoSpaces l →
    (b = true → ∀ c cs, l = c :: cs → isJsSpace c = false) →
    collapseWsAux b l = l := by
  intro l
  induction l with
  | nil => intro b _ _ _; rfl
  | cons d ds ih =>
    intro b h1 h2 h3
    by_cases hd : isJsSpace d = true
    · have hd' : d = ' ' := h1 d (List.mem_cons_self _ _) hd
      subst hd'
      cases b with
      | true => exact absurd (h3 rfl ' ' ds rfl) (by decide)
      | false =>
        rw [collapseWsAux, if_pos hd]
        have htail : collapseWsAux true ds = ds := by
          refine ih true (fun c hc => h1 c (List.mem_cons_of_mem _ hc))
            (List.chain'_cons'.mp h2).2 ?_
          intro _ c cs hcs
          subst hcs
          have hr := (List.chain'_cons'.mp h2).1 c (by simp)
          have hc_ne : c ≠ ' ' := fun hceq => hr ⟨rfl, hceq⟩
          cases hjs : isJsSpace c with
          | false => rfl
          | true =>
            exact absurd
              (h1 c (List.mem_cons_of_mem _ (List.mem_cons_self _ _)) hjs) hc_ne
        rw [htail]
        rfl
    · rw [collapseWsAux, if_neg hd]
      have htail : collapseWsAux false ds = ds :=
        ih false (fun c hc => h1 c (List.mem_cons_of_mem _ hc))
          (List.chain'_cons'.mp h2).2 (fun h => by simp at h)
      rw [htail]

theorem collapseWs_no_nl (l : List Char) (b : Bool) : '\n' ∉ collapseWsAux b l := by
  intro hmem
  have := collapseWsAux_spaceOnly l b '\n' hmem (by decide)
  exact absurd this (by decide)

theorem collapseNlAux_id : ∀ (l : List Char) (b : Bool), '\n' ∉ l →
    collapseNlAux b l = l := by
  intro l
  induction l with
  | nil => intro b _; rfl
  | cons d ds ih =>
    intro b h
    have hd : d ≠ '\n' := fun hdeq => h (hdeq ▸ List.mem_cons_self d ds)
    rw [collapseNlAux]
    rw [if_neg (by simp [hd])]
    rw [ih false (fun hmem => h (List.mem_cons_of_mem _ hmem))]

end PyValidator.TitanEmbeddingClient

namespace PyValidator.TitanEmbeddingClient

open PyValidator

theorem dropWhile_head_false (p : Char → Bool) (l : List Char) :
    ∀ c cs, l.dropWhile p = c :: cs → p c = false := by
  intro c cs hl
  have h := List.head?_dropWhile_not p l
  rw [hl] at h
  simpa using h

theorem dropWhile_id_of_head (p : Char → Bool) (l : List Char)
    (h : ∀ c cs, l = c :: cs → p c = false) : l.dropWhile p = l := by
  cases l with
  | nil => rfl
  | cons c cs => rw [List.dropWhile_cons, if_neg (by simp [h c cs rfl])]

theorem mem_jsTrim {c : Char} {l : List Char} (h : c ∈ jsTrim l) : c ∈ l := by
  unfold jsTrim at h
  have h1 := List.mem_reverse.mp h
  have h2 := (List.dropWhile_suffix _).sublist.subset h1
  have h3 := List.mem_reverse.mp h2
  exact (List.dropWhile_suffix _).sublist.subset h3

theorem chain'_of_suffix {α : Type} {R : α → α → Prop} {l1 l2 : List α}
    (h : l1 <:+ l2) (hc : List.Chain' R l2) : List.Chain' R l1 := by
  obtain ⟨pre, rfl⟩ := h
  exact (List.chain'_append.mp hc).2.1

theorem noTwoSpaces_jsTrim {l : List Char} (h : noTwoSpaces l) :
    noTwoSpaces (jsTrim l) := by
  unfold noTwoSpaces at *
  unfold jsTrim
  have hsymm : ∀ a b : Char, ¬(a = ' ' ∧ b = ' ') → ¬(b = ' ' ∧ a = ' ') :=
    fun a b hab hc => hab ⟨hc.2, hc.1⟩
  have h1 : List.Chain' (fun a b : Char => ¬(a = ' ' ∧ b = ' '))
      (l.dropWhile isJsSpace) :=
    chain'_of_suffix (List.dropWhile_suffix _) h
  have h2 : List.Chain' (fun a b : Char => ¬(a = ' ' ∧ b = ' '))
      (l.dropWhile isJsSpace).reverse :=
    List.chain'_reverse.mpr (h1.imp hsymm)
  have h3 : List.Chain' (fun a b : Char => ¬(a = ' ' ∧ b = ' '))
      ((l.dropWhile isJsSpace).reverse.dropWhile isJsSpace) :=
    chain'_of_suffix (List.dropWhile_suffix _) h2
  exact List.chain'_reverse.mpr (h3.imp hsymm)

theorem spaceOnly_jsTrim {l : List Char} (h : spaceOnly l) : spaceOnly (jsTrim l) :=
  fun c hc hws => h c (mem_jsTrim hc) hws

theorem no_nl_jsTrim {l : List Char} (h : '\n' ∉ l) : '\n' ∉ jsTrim l :=
  fun hmem => h (mem_jsTrim hmem)

theorem jsTrim_idem (l : List Char) : jsTrim (jsTrim l) = jsTrim l := by
  set p := isJsSpace with hp
  set A := l.dropWhile p with hA
  set B := A.reverse.dropWhile p with hB
  have hT : jsTrim l = B.reverse := rfl
  have hsuf : B <:+ A.reverse := by rw [hB]; exact List.dropWhile_suffix p
  have hpre : B.reverse <+: A := by
    have h2 := List.reverse_prefix.mpr hsuf
    rwa [List.reverse_reverse] at h2
  have hc1 : B.reverse.dropWhile p = B.reverse := by
    apply dropWhile_id_of_head
    intro c cs hcs
    obtain ⟨rest, hrest⟩ := hpre
    rw [hcs] at hrest
    have hA' : l.dropWhile p = c :: (cs ++ rest) := by
      rw [← hA, ← hrest]
      simp
    exact dropWhile_head_false p l c (cs ++ rest) hA'
  have hc2 : B.dropWhile p = B := by
    apply dropWhile_id_of_head
    intro c cs hcs
    exact dropWhile_head_false p A.reverse c cs (by rw [← hB, hcs])
  rw [hT]
  show ((B.reverse.dropWhile p).reverse.dropWhile p).reverse = B.reverse
  rw [hc1, List.reverse_reverse, hc2]

end PyValidator.TitanEmbeddingClient

namespace PyValidator.TitanEmbeddingClient

open PyValidator

/-- C8 (amended): `preprocessText` is idempotent on every input whose
normalized, trimmed text fits within the 8000-character truncation
limit (truncation can otherwise cut directly after a space, which the
second application's trim then removes). -/
theorem preprocessText_idempotent_of_fits (s : String)
    (h : (jsTrim (collapseNl (collapseWs s.data))).length ≤ 8000) :
    preprocessText (preprocessText s) = preprocessText s := by
  have hnl_u : '\n' ∉ collapseWs s.data := collapseWs_no_nl s.data false
  have hu_nl : collapseNl (collapseWs s.data) = collapseWs s.data :=
    collapseNlAux_id (collapseWs s.data) false hnl_u
  rw [hu_nl] at h
  have hps : preprocessText s = ⟨jsTrim (collapseWs s.data)⟩ := by
    show (⟨(jsTrim (collapseNl (collapseWs s.data))).take 8000⟩ : String) = _
    rw [hu_nl, List.take_of_length_le h]
  have hso : spaceOnly (jsTrim (collapseWs s.data)) :=
    spaceOnly_jsTrim (collapseWsAux_spaceOnly s.data false)
  have hnt : noTwoSpaces (jsTrim (collapseWs s.data)) :=
    noTwoSpaces_jsTrim (collapseWsAux_noTwo s.data false)
  have hws_t : collapseWs (jsTrim (collapseWs s.data)) = jsTrim (collapseWs s.data) :=
    collapseWsAux_id _ false hso hnt (fun hb => absurd hb (by decide))
  have hnl_t : '\n' ∉ jsTrim (collapseWs s.data) := no_nl_jsTrim hnl_u
  have hnlt : collapseNl (jsTrim (collapseWs s.data)) = jsTrim (collapseWs s.data) :=
    collapseNlAux_id _ false hnl_t
  have htr : jsTrim (jsTrim (collapseWs s.data)) = jsTrim (collapseWs s.data) :=
    jsTrim_idem _
  rw [hps]
  show (⟨(jsTrim (collapseNl (collapseWs (jsTrim (collapseWs s.data))))).take 8000⟩ :
    String) = _
  rw [hws_t, hnlt, htr, List.take_of_length_le h]

/-- Witness for the amended C8 at a short messy input. -/
theorem preprocessText_idempotent_of_fits_witness :
    (jsTrim (collapseNl (collapseWs ("  a   b\n\nc  " : String).data))).length ≤ 8000 ∧
    preprocessText (preprocessText "  a   b\n\nc  ") = preprocessText "  a   b\n\nc  " :=
  ⟨by decide, preprocessText_idempotent_of_fits "  a   b\n\nc  " (by decide)⟩

end PyValidator.TitanEmbeddingClient

namespace PyValidator.TitanEmbeddingClient

open PyValidator

/-- 7999 copies of `a`. -/
def bigChunk : List Char := List.replicate 7999 'a'

theorem bigChunk_length : bigChunk.length = 7999 := by
  show (List.replicate 7999 'a').length = 7999
  rw [List.length_replicate]

/-- The 8001-character counterexample input to C8: 7999 `a`s, a space,
then `b`.  Truncation to 8000 characters cuts directly after the space. -/
def bigStr : String := ⟨bigChunk ++ [' ', 'b']⟩

theorem collapseWsAux_false_replicate (l : List Char) : ∀ n,
    collapseWsAux false (List.replicate n 'a' ++ l) =
      List.replicate n 'a' ++ collapseWsAux false l := by
  intro n
  induction n with
  | zero => simp
  | succ n ih =>
    rw [List.replicate_succ, List.cons_append, List.cons_append]
    rw [collapseWsAux, if_neg (by decide), ih]

theorem collapseNlAux_false_replicate (l : List Char) : ∀ n,
    collapseNlAux false (List.replicate n 'a' ++ l) =
      List.replicate n 'a' ++ collapseNlAux false l := by
  intro n
  induction n with
  | zero => simp
  | succ n ih =>
    rw [List.replicate_succ, List.cons_append, List.cons_append]
    rw [collapseNlAux, if_neg (by decide), ih]

theorem dropWhile_bigChunk_append (l : List Char) :
    (bigChunk ++ l).dropWhile isJsSpace = bigChunk ++ l := by
  show (List.replicate 7999 'a' ++ l).dropWhile isJsSpace = _
  rw [show (7999 : ℕ) = 7998 + 1 from rfl, List.replicate_succ, List.cons_append,
    List.dropWhile_cons, if_neg (by decide)]
  rfl

theorem bigChunk_reverse : bigChunk.reverse = bigChunk := by
  show (List.replicate 7999 'a').reverse = _
  rw [List.reverse_replicate]
  rfl

theorem dropWhile_bigChunk_rev :
    bigChunk.reverse.dropWhile isJsSpace = bigChunk.reverse := by
  rw [bigChunk_reverse]
  show (List.replicate 7999 'a').dropWhile isJsSpace = _
  rw [show (7999 : ℕ) = 7998 + 1 from rfl, List.replicate_succ,
    List.dropWhile_cons, if_neg (by decide)]
  rfl

theorem preprocess_bigStr :
    preprocessText bigStr = ⟨bigChunk ++ [' ']⟩ := by
  have e1 : collapseWs (bigChunk ++ [' ', 'b']) = bigChunk ++ [' ', 'b'] := by
    show collapseWsAux false (List.replicate 7999 'a' ++ [' ', 'b']) = _
    rw [collapseWsAux_false_replicate [' ', 'b'] 7999]
    rw [show collapseWsAux false [' ', 'b'] = [' ', 'b'] from by decide]
    rfl
  have e2 : collapseNl (bigChunk ++ [' ', 'b']) = bigChunk ++ [' ', 'b'] := by
    show collapseNlAux false (List.replicate 7999 'a' ++ [' ', 'b']) = _
    rw [collapseNlAux_false_replicate [' ', 'b'] 7999]
    rw [show collapseNlAux false [' ', 'b'] = [' ', 'b'] from by decide]
    rfl
  have e3 : jsTrim (bigChunk ++ [' ', 'b']) = bigChunk ++ [' ', 'b'] := by
    unfold jsTrim
    rw [dropWhile_bigChunk_append, List.reverse_append]
    generalize hX : bigChunk.reverse = X
    rw [show ([' ', 'b'] : List Char).reverse = ['b', ' '] from rfl]
    rw [show (['b', ' '] : List Char) ++ X = 'b' :: ' ' :: X from rfl]
    rw [List.dropWhile_cons, if_neg (by decide)]
    rw [List.reverse_cons, List.reverse_cons, ← hX, List.reverse_reverse,
      List.append_assoc]
    rfl
  have e4 : (bigChunk ++ [' ', 'b']).take 8000 = bigChunk ++ [' '] := by
    rw [List.take_append_eq_append_take, bigChunk_length]
    rw [List.take_of_length_le (by rw [bigChunk_length]; norm_num)]
    norm_num
  show (⟨(jsTrim (collapseNl (collapseWs (bigChunk ++ [' ', 'b'])))).take 8000⟩ :
    String) = _
  rw [e1, e2, e3, e4]

theorem preprocess_bigStr_twice :
    preprocessText (⟨bigChunk ++ [' ']⟩ : String) = ⟨bigChunk⟩ := by
  have e1 : collapseWs (bigChunk ++ [' ']) = bigChunk ++ [' '] := by
    show collapseWsAux false (List.replicate 7999 'a' ++ [' ']) = _
    rw [collapseWsAux_false_replicate [' '] 7999]
    rw [show collapseWsAux false [' '] = [' '] from by decide]
    rfl
  have e2 : collapseNl (bigChunk ++ [' ']) = bigChunk ++ [' '] := by
    show collapseNlAux false (List.replicate 7999 'a' ++ [' ']) = _
    rw [collapseNlAux_false_replicate [' '] 7999]
    rw [show collapseNlAux false [' '] = [' '] from by decide]
    rfl
  have e3 : jsTrim (bigChunk ++ [' ']) = bigChunk := by
    unfold jsTrim
    rw [dropWhile_bigChunk_append, List.reverse_append]
    generalize hX : bigChunk.reverse = X
    rw [show ([' '] : List Char).reverse = [' '] from rfl]
    rw [show ([' '] : List Char) ++ X = ' ' :: X from rfl]
    rw [List.dropWhile_cons, if_pos (by decide)]
    rw [← hX, dropWhile_bigChunk_rev, List.reverse_reverse]
  have e4 : bigChunk.take 8000 = bigChunk :=
    List.take_of_length_le (by rw [bigChunk_length]; norm_num)
  show (⟨(jsTrim (collapseNl (collapseWs (bigChunk ++ [' '])))).take 8000⟩ : String) = _
  rw [e1, e2, e3, e4]

/-- Counterexample to C8 as stated: at the explicit 8001-character
input (7999 `a`s, a space, `b`), `preprocessText` truncates directly
after the space, so a second application trims that trailing space and
the results differ (lengths 8000 vs 7999). -/
theorem preprocessText_not_idempotent :
    preprocessText (preprocessText bigStr) ≠ preprocessText bigStr := by
  rw [preprocess_bigStr, preprocess_bigStr_twice]
  intro heq
  have hdata : bigChunk = bigChunk ++ [' '] := congrArg String.data heq
  have hlen := congrArg List.length hdata
  rw [List.length_append, bigChunk_length] at hlen
  simp at hlen

end PyValidator.TitanEmbeddingClient
